import Mathlib

/-!
Shallow embedding of the municipal-bond analytics pipeline
(`src/Visualizations.py` and `src/data/Muni_dashboard_deployment.py`).

Tables are lists of rows; pandas DataFrames carry an implicit positional
index, which is modelled by an explicit `idx` field on time-versioned fact
rows.  Dates parsed by `pd.to_datetime` are modelled as day numbers (`Int`);
numeric columns are modelled as exact rationals (`Rat`).  `sort_values` is
modelled as a stable sort (Mathlib's `insertionSort`).
-/

set_option maxHeartbeats 1000000

namespace Muni

/-- Row of `issuers.csv` restricted to the columns the pipeline selects
(`issuer_id`, `state`, `issuer_name`). -/
structure IssuerRow where
  issuer_id : Nat
  state : String
  issuer_name : String
deriving DecidableEq

/-- Row of `bond_purposes.csv` (`purpose_id`, `purpose_category`). -/
structure PurposeRow where
  purpose_id : Nat
  purpose_category : String
deriving DecidableEq

/-- Row of `bonds.csv` with the columns the pipeline uses. `maturity_date`
is the day number produced by `pd.to_datetime`. -/
structure BondRow where
  bond_id : Nat
  issuer_id : Nat
  purpose_id : Nat
  coupon_rate : Rat
  bond_type : String
  maturity_date : Int
deriving DecidableEq

/-- Row of `trades.csv` after `pd.to_datetime` on `trade_date`.  `idx` is
the positional index of the row in the input frame. -/
structure TradeRow where
  idx : Nat
  bond_id : Nat
  trade_date : Int
  yield_pct : Rat
  trade_price : Rat
  quantity : Rat
  buyer_type : String
deriving DecidableEq

/-- Row of `credit_ratings.csv` after `pd.to_datetime` on `rating_date`.
`idx` is the positional index of the row in the input frame. -/
structure RatingRow where
  idx : Nat
  bond_id : Nat
  rating_date : Int
  rating : String
deriving DecidableEq

/-- Pandas left merge (`base.merge(other, on=key, how='left')`): every base
row is emitted once per matching `other` row, or once with a missing
right-hand side when no key matches.  Duplicate keys in `other` therefore
multiply the base row (pandas many-to-one is not enforced by `how='left'`). -/
def leftMerge {α β : Type} (keyb : α → Nat) (keyo : β → Nat)
    (base : List α) (other : List β) : List (α × Option β) :=
  base.flatMap (fun a =>
    if (other.filter (fun b => keyo b == keyb a)).isEmpty then [(a, none)]
    else (other.filter (fun b => keyo b == keyb a)).map (fun b => (a, some b)))

/-- Pandas `drop_duplicates(subset=[key], keep='last')`: a row is kept
exactly when no later row carries the same key; kept rows stay in their
original relative order. -/
def keepLast {α : Type} (key : α → Nat) : List α → List α
  | [] => []
  | a :: l =>
    if l.any (fun b => key b == key a) then keepLast key l
    else a :: keepLast key l

/-- Pandas `sort_values(dateCol)` followed by
`drop_duplicates(subset=[key], keep='last')` — the latest-snapshot
resolution used for both ratings (line 53) and trades (line 58) of
`Visualizations.py`.  `sort_values` defaults to `kind='quicksort'`, which
is not stable, so the program fixes no particular order among rows tying
on the date; this executable instance picks one admissible date-sorted
permutation (an insertion sort).  Properties that could depend on the tie
order are stated over every admissible sort outcome (`resolveLatestRel`),
never read off this instance. -/
def resolveLatest {α : Type} (key : α → Nat) (date : α → Int)
    (l : List α) : List α :=
  keepLast key (List.insertionSort (fun a b => date a ≤ date b) l)

/-- Contract of pandas `sort_values(dateCol)` with its default unstable
`kind='quicksort'`: the output is some permutation of the input that is
nondecreasing in the date column.  Which of several rows tying on a date
comes first is not specified by the program. -/
def sortedByDate {α : Type} (date : α → Int) (l L : List α) : Prop :=
  List.Perm l L ∧ L.Pairwise (fun a b => date a ≤ date b)

/-- The possible outcomes of the latest-snapshot resolution of lines 53
and 58: `drop_duplicates(subset=[key], keep='last')` applied to some
admissible result of the unstable sort. -/
def resolveLatestRel {α : Type} (key : α → Nat) (date : α → Int)
    (facts snapshot : List α) : Prop :=
  ∃ L, sortedByDate date facts L ∧ snapshot = keepLast key L

/-- The `RATING_ORDER` dictionary of `Visualizations.py` (lines 18-25), as
an association list in its source order. -/
def RATING_ORDER : List (String × Nat) :=
  [("AAA", 1), ("AA+", 2), ("AA", 3), ("AA-", 4),
   ("A+", 5), ("A", 6), ("A-", 7),
   ("BBB+", 8), ("BBB", 9), ("BBB-", 10),
   ("BB+", 11), ("BB", 12), ("BB-", 13),
   ("B+", 14), ("B", 15), ("B-", 16),
   ("CCC", 17), ("CC", 18), ("C", 19), ("D", 20)]

/-- The rating labels in enumeration order (best first). -/
def RATING_LABELS : List String := RATING_ORDER.map Prod.fst

/-- Dictionary lookup `Series.map(RATING_ORDER)`; a label absent from the
dictionary becomes the missing marker (`NaN` in pandas, `none` here). -/
def ratingOrder (s : String) : Option Nat :=
  (RATING_ORDER.find? (fun p => p.1 == s)).map Prod.snd

/-- Latest-rating row after line 54 adds `rating_code_num`. -/
structure LatestRatingRow where
  bond_id : Nat
  rating_date : Int
  rating : String
  rating_code_num : Option Nat
deriving DecidableEq

/-- Line 54 of `Visualizations.py`:
`df_latest_ratings['rating_code_num'] = df_latest_ratings['rating'].map(RATING_ORDER)`. -/
def addRatingCode (r : RatingRow) : LatestRatingRow :=
  ⟨r.bond_id, r.rating_date, r.rating, ratingOrder r.rating⟩

/-- Line 53 of `Visualizations.py` (with line 54's derived column):
`df_ratings.sort_values('rating_date').drop_duplicates(subset=['bond_id'], keep='last')`. -/
def df_latest_ratings (ratings : List RatingRow) : List LatestRatingRow :=
  (resolveLatest RatingRow.bond_id RatingRow.rating_date ratings).map addRatingCode

/-- Line 58 of `Visualizations.py`:
`df_trades.sort_values('trade_date').drop_duplicates(subset=['bond_id'], keep='last')`. -/
def df_latest_trades (trades : List TradeRow) : List TradeRow :=
  resolveLatest TradeRow.bond_id TradeRow.trade_date trades

/-- Lines 41-42: `df_data['bonds'].merge(df_data['issuers'][...], on='issuer_id', how='left')`. -/
def mergeBondsIssuers (bonds : List BondRow) (issuers : List IssuerRow) :
    List (BondRow × Option IssuerRow) :=
  leftMerge BondRow.issuer_id IssuerRow.issuer_id bonds issuers

/-- A bond row joined with its dimension rows after lines 41-43. -/
abbrev BondsJoined := (BondRow × Option IssuerRow) × Option PurposeRow

/-- Line 43: `df_bonds.merge(df_data['purposes'], on='purpose_id', how='left')`. -/
def mergeBondsPurposes (bi : List (BondRow × Option IssuerRow))
    (purposes : List PurposeRow) : List BondsJoined :=
  leftMerge (fun p => p.1.purpose_id) PurposeRow.purpose_id bi purposes

/-- Lines 41-43 composed: the denormalized bonds table `df_bonds`. -/
def df_bonds (bonds : List BondRow) (issuers : List IssuerRow)
    (purposes : List PurposeRow) : List BondsJoined :=
  mergeBondsPurposes (mergeBondsIssuers bonds issuers) purposes

/-- Lines 60-61: `df_bonds.merge(df_latest_trades[...], on='bond_id', how='left')`. -/
def mergeMasterTrades (bonds2 : List BondsJoined) (lt : List TradeRow) :
    List (BondsJoined × Option TradeRow) :=
  leftMerge (fun r => r.1.1.bond_id) TradeRow.bond_id bonds2 lt

/-- A fully joined master row after line 62. -/
abbrev MasterJoined := (BondsJoined × Option TradeRow) × Option LatestRatingRow

/-- Line 62: `df_master.merge(df_latest_ratings[...], on='bond_id', how='left')`. -/
def mergeMasterRatings (m : List (BondsJoined × Option TradeRow))
    (lr : List LatestRatingRow) : List MasterJoined :=
  leftMerge (fun r => r.1.1.1.bond_id) LatestRatingRow.bond_id m lr

/-- Lines 41-62 composed: the master DataFrame `df_master` (before the
derived-column calculations). -/
def df_master (bonds : List BondRow) (issuers : List IssuerRow)
    (purposes : List PurposeRow) (trades : List TradeRow)
    (ratings : List RatingRow) : List MasterJoined :=
  mergeMasterRatings
    (mergeMasterTrades (df_bonds bonds issuers purposes) (df_latest_trades trades))
    (df_latest_ratings ratings)

/-- Day number (days since 1970-01-01) of a civil date, as computed by
`pd.to_datetime` for calendar dates; Howard Hinnant's `days_from_civil`
algorithm. -/
def daysFromCivil (y m d : Int) : Int :=
  let yy := if m ≤ 2 then y - 1 else y
  let era := (if 0 ≤ yy then yy else yy - 399) / 400
  let yoe := yy - era * 400
  let mp := (m + 9) % 12
  let doy := (153 * mp + 2) / 5 + d - 1
  let doe := yoe * 365 + yoe / 4 - yoe / 100 + doy
  era * 146097 + doe - 719468

/-- Line 69 of `Visualizations.py`: `TODAY = datetime(2024, 6, 1)` — the
fixed cut-off date for the time-to-maturity calculation, as a day number. -/
def TODAY : Int := daysFromCivil 2024 6 1

/-- The `maturity_date` column of a master row. -/
def maturityOf (r : MasterJoined) : Int := r.1.1.1.1.maturity_date

/-- Line 70 of `Visualizations.py`:
`df_master['time_to_maturity'] = (df_master['maturity_date'] - TODAY).dt.days / 365.25`,
modelled with exact rational arithmetic. -/
def addTimeToMaturity (rows : List MasterJoined) : List (MasterJoined × Rat) :=
  rows.map (fun r => (r, ((maturityOf r - TODAY : Int) : Rat) / (365.25 : Rat)))

/-- Concrete master row (one bond maturing ten days before the cut-off)
used to witness the time-to-maturity theorem. -/
def mjW : MasterJoined :=
  ((((⟨1, 7, 2, 5, "GO", TODAY - 10⟩, none), none), none), none)

/-- A trade row with its calendar date kept as a (year, month, day)
triple, as consumed by the monthly resample of lines 131-134. -/
structure TradeDated where
  year : Int
  month : Nat
  day : Nat
  yield_pct : Rat
  trade_price : Rat
deriving DecidableEq

/-- Linearized calendar-month index of a trade row. -/
def monthIdx (r : TradeDated) : Int := r.year * 12 + (r.month : Int)

/-- The yield values of the trades falling in month `i`. -/
def monthVals (trades : List TradeDated) (i : Int) : List Rat :=
  (trades.filter (fun r => monthIdx r == i)).map TradeDated.yield_pct

/-- Mean aggregation of a bucket: pandas `agg('mean')` yields the missing
marker (`NaN`) on an empty bucket. -/
def meanOpt (l : List Rat) : Option Rat :=
  if l.isEmpty then none else some (l.sum / (l.length : Rat))

/-- Smallest element of an integer list. -/
def listMin : List Int → Option Int
  | [] => none
  | a :: l =>
    match listMin l with
    | none => some a
    | some m => some (if a ≤ m then a else m)

/-- Largest element of an integer list. -/
def listMax : List Int → Option Int
  | [] => none
  | a :: l =>
    match listMax l with
    | none => some a
    | some m => some (if a ≤ m then m else a)

/-- Lines 131-134 of `Visualizations.py`:
`df_trades.set_index('trade_date').resample('M').agg({'yield': 'mean', ...})`.
Pandas `resample('M')` emits one bucket per calendar month from the
earliest to the latest trade date inclusive; a month with no rows still
appears, carrying a missing (`NaN`) aggregate.  Only the yield column is
modelled. -/
def resampleMonthlyYield (trades : List TradeDated) : List (Int × Option Rat) :=
  match listMin (trades.map monthIdx), listMax (trades.map monthIdx) with
  | some lo, some hi =>
      (List.range ((hi - lo).toNat + 1)).map
        (fun n : Nat => (lo + (n : Int), meanOpt (monthVals trades (lo + (n : Int)))))
  | _, _ => []

/-- The columns of `df_master` consumed by the sector-performance pivot of
lines 161-162: purpose category, bond type, latest yield. -/
structure SectorRow where
  purpose_category : String
  bond_type : String
  yield_pct : Rat
deriving DecidableEq

/-- The yields observed for the key combination `(p, b)`. -/
def cellVals (rows : List SectorRow) (p b : String) : List Rat :=
  (rows.filter (fun r => r.purpose_category == p && r.bond_type == b)).map
    SectorRow.yield_pct

/-- Mean of a group (`groupby` only forms nonempty groups). -/
def mean (l : List Rat) : Rat := l.sum / (l.length : Rat)

/-- Line 161 of `Visualizations.py`:
`df_master.groupby(['purpose_category', 'bond_type'])['yield'].mean().reset_index()` —
one row per distinct key combination present in the input, carrying the
group's mean yield. -/
def df_sector_perf (rows : List SectorRow) : List ((String × String) × Rat) :=
  ((rows.map (fun r => (r.purpose_category, r.bond_type))).dedup).map
    (fun k => (k, mean (cellVals rows k.1 k.2)))

/-- Line 162 of `Visualizations.py`:
`df_sector_perf.pivot(index='purpose_category', columns='bond_type', values='yield').fillna(0)` —
a rectangular grid over the distinct first and second keys of the input,
each cell holding the input value for that key combination, with missing
cells filled with the sentinel 0. -/
def pivotGrid (perf : List ((String × String) × Rat)) :
    List (String × List (String × Rat)) :=
  ((perf.map (fun q => q.1.1)).dedup).map (fun p =>
    (p, ((perf.map (fun q => q.1.2)).dedup).map (fun b =>
      (b, match perf.find? (fun q => q.1.1 == p && q.1.2 == b) with
          | some q => q.2
          | none => 0))))

/-- A raw cell of a date column before `pd.to_datetime`: either a value
that parses to a day number or unparseable text. -/
inductive RawCell where
  | dateVal (d : Int)
  | junk (s : String)
deriving DecidableEq

/-- Parsing one cell: `pd.to_datetime` raises on unparseable input (its
default is `errors='raise'`). -/
def parseCell : RawCell → Except String Int
  | .dateVal d => Except.ok d
  | .junk s => Except.error s

/-- Row of `credit_ratings.csv` before date parsing. -/
structure RawRatingRow where
  idx : Nat
  bond_id : Nat
  rating_date : RawCell
  rating : String
deriving DecidableEq

/-- Line 51 of `Visualizations.py`:
`df_ratings['rating_date'] = pd.to_datetime(df_ratings['rating_date'])` with
the default `errors='raise'`: the first unparseable cell raises, aborting
the whole column conversion; when every cell parses, every row is
converted. -/
def to_datetime_ratings : List RawRatingRow → Except String (List RatingRow)
  | [] => Except.ok []
  | r :: rs =>
    match parseCell r.rating_date with
    | Except.error e => Except.error e
    | Except.ok d =>
      match to_datetime_ratings rs with
      | Except.error e => Except.error e
      | Except.ok l => Except.ok (⟨r.idx, r.bond_id, d, r.rating⟩ :: l)

/-- Lines 50-54 of `Visualizations.py`: ratings preparation — the date
conversion of line 51 followed by the latest-snapshot resolution and
ordinal rating code of lines 53-54.  No `try/except` guards line 51, so a
parse failure propagates out of `load_and_prepare_data`. -/
def prepare_ratings (rows : List RawRatingRow) :
    Except String (List LatestRatingRow) :=
  (to_datetime_ratings rows).map df_latest_ratings

/-- The six input-file keys of `Visualizations.py` (`CSV_FILES`, lines 8-15). -/
def CSV_KEYS : List String :=
  ["issuers", "purposes", "bonds", "ratings", "trades", "macro"]

/-- Lines 30-36 of `Visualizations.py`: the dict comprehension
`{key: pd.read_csv(f) for key, f in CSV_FILES.items()}` runs inside a
single `try`; the first missing file raises `FileNotFoundError` and the
handler returns `None`, so nothing at all is loaded.  `files` maps a key
to its table when the file exists. -/
def read_tables {DF : Type} (files : String → Option DF) :
    List String → Option (List (String × DF))
  | [] => some []
  | k :: ks =>
    match files k with
    | none => none
    | some d =>
      match read_tables files ks with
      | none => none
      | some rest => some ((k, d) :: rest)

/-- The loading phase of `load_and_prepare_data` (lines 28-36): `some`
with every table exactly when all six files load, `none` otherwise. -/
def load_and_prepare_data {DF : Type} (files : String → Option DF) :
    Option (List (String × DF)) :=
  read_tables files CSV_KEYS

/-- The five analysis keys of `Muni_dashboard_deployment.py`
(`DATA_FILE_PATHS`, lines 16-22). -/
def DATA_KEYS : List String :=
  ["high_volume_issuers", "credit_sentiment", "long_duration_trades",
   "undervalued_bonds", "yield_spread"]

/-- Lines 133-195 of `Muni_dashboard_deployment.py` (`load_all_data`):
each key's content is fetched and cleaned inside a per-key `try/except`
that logs and continues, so a failure for one key only omits that key's
entry.  `step` maps a key to its cleaned table or to the error raised
while processing it. -/
def load_all_data {DF : Type} (step : String → Except String DF) :
    List (String × DF) :=
  DATA_KEYS.filterMap (fun k =>
    match step k with
    | Except.ok d => some (k, d)
    | Except.error _ => none)

/-- Observable identity of the macro-indicator frame for the mutation
claim: its column names and whether its date column has been converted. -/
structure MacroDF where
  cols : List String
  dateParsed : Bool
deriving DecidableEq

/-- The column renaming of line 138 of `Visualizations.py`. -/
def renameMacroCol (c : String) : String :=
  if c = "state" then "state_code"
  else if c = "unemployment_rate" then "unemployment_rate_pct" else c

/-- Lines 138-139 of `Visualizations.py`:
`df_macro.rename(columns={'state': 'state_code', 'unemployment_rate': 'unemployment_rate_pct'}, inplace=True)`
followed by `df_macro['date'] = pd.to_datetime(df_macro['date'])` — both
write the frame in place. -/
def prepareMacroInPlace (m : MacroDF) : MacroDF :=
  ⟨m.cols.map renameMacroCol, true⟩

/-- In-place effects of `create_visualizations` on its four arguments: the
master, trades and latest-ratings frames are only read (all other frames
of the function are derived fresh), while the macro frame is renamed and
converted in place by lines 138-139.  Returns the state of the four
argument tables after the call. -/
def create_visualizations_effects (master : List MasterJoined)
    (trades : List TradeRow) (latest : List LatestRatingRow) (m : MacroDF) :
    List MasterJoined × List TradeRow × List LatestRatingRow × MacroDF :=
  (master, trades, latest, prepareMacroInPlace m)

/-- A row of the hardcoded `yield_spread` data of
`Muni_dashboard_deployment.py` (lines 101-120), numeric columns as exact
decimals. -/
structure YieldSpreadRow where
  trade_id : Nat
  issuer_name : String
  trade_date : String
  bond_yield : Rat
  treasury_rate : Rat
  yield_spread_bps : Rat
deriving DecidableEq

/-- Pandas `drop_duplicates(subset=[key])` with the default `keep='first'`,
carrying the set of keys already seen. -/
def keepFirstAux {α : Type} (key : α → Nat) (seen : List Nat) : List α → List α
  | [] => []
  | a :: l =>
    if seen.contains (key a) then keepFirstAux key seen l
    else a :: keepFirstAux key (key a :: seen) l

/-- Pandas `drop_duplicates(subset=[key], keep='first')`. -/
def keepFirst {α : Type} (key : α → Nat) (l : List α) : List α :=
  keepFirstAux key [] l

/-- The rows of `getFileContent('yield_spread')` (lines 103-119), in file
order. -/
def yield_spread_raw : List YieldSpreadRow :=
  [⟨2459, "IL City #3", "2021-08-16", 6.41, 0.79, 5.62⟩,
   ⟨10461, "IL City #3", "2021-08-16", 6.41, 0.79, 5.62⟩,
   ⟨2460, "IL City #3", "2021-10-05", 6.2, 0.63, 5.57⟩,
   ⟨10462, "IL City #3", "2021-10-05", 6.2, 0.63, 5.57⟩,
   ⟨13121, "State of NY", "2021-06-19", 6.05, 0.6, 5.45⟩,
   ⟨5119, "State of NY", "2021-06-19", 6.05, 0.6, 5.45⟩,
   ⟨10800, "FL Housing Authority #10", "2020-05-19", 6.37, 0.95, 5.42⟩,
   ⟨2798, "FL Housing Authority #10", "2020-05-19", 6.37, 0.95, 5.42⟩,
   ⟨13962, "IL County #4", "2020-04-13", 6.23, 0.84, 5.39⟩,
   ⟨5960, "IL County #4", "2020-04-13", 6.23, 0.84, 5.39⟩,
   ⟨1085, "FL Transit District #8", "2020-07-10", 5.84, 0.53, 5.31⟩,
   ⟨9087, "FL Transit District #8", "2020-07-10", 5.84, 0.53, 5.31⟩,
   ⟨9569, "State of NY", "2020-01-23", 5.9, 0.6, 5.3⟩,
   ⟨1567, "State of NY", "2020-01-23", 5.9, 0.6, 5.3⟩,
   ⟨5127, "IL County #11", "2021-10-25", 5.92, 0.63, 5.29⟩,
   ⟨5127, "IL County #11", "2021-10-25", 5.92, 0.63, 5.29⟩]

/-- Lines 179-186 of `Muni_dashboard_deployment.py`: the `yield_spread`
cleaning — numeric conversion (every cell of the hardcoded data is
numeric, so `errors='coerce'` marks nothing missing and the following
`dropna` drops nothing) then `drop_duplicates(subset=['trade_id'])`. -/
def df_yield_spread : List YieldSpreadRow :=
  keepFirst YieldSpreadRow.trade_id yield_spread_raw

/-- Modelled from the spec: the yield-spread calculation itself is
performed in the SQL analysis outside this repository (the deployment file
only hardcodes its results), so the operator is modelled from spec section
4.4: `instrument_yield − reference_rate`, missing if either input is
missing. -/
def yieldSpread (y r : Option Rat) : Option Rat :=
  match y, r with
  | some a, some b => some (a - b)
  | _, _ => none

/-! ### Basic lemmas about `keepLast` and `leftMerge` -/

theorem mem_of_mem_keepLast {α : Type} (key : α → Nat) {r : α} :
    ∀ {l : List α}, r ∈ keepLast key l → r ∈ l
  | [], h => by simp [keepLast] at h
  | a :: l, h => by
    by_cases hc : l.any (fun b => key b == key a) = true
    · simp only [keepLast, hc, if_true] at h
      exact List.mem_cons_of_mem a (mem_of_mem_keepLast key h)
    · simp only [keepLast, hc, if_false] at h
      rcases List.mem_cons.1 h with h | h
      · exact h ▸ List.mem_cons_self a l
      · exact List.mem_cons_of_mem a (mem_of_mem_keepLast key h)

theorem keepLast_pairwise_ne {α : Type} (key : α → Nat) :
    ∀ l : List α, (keepLast key l).Pairwise (fun a b => key a ≠ key b)
  | [] => by simp [keepLast]
  | a :: l => by
    by_cases hc : l.any (fun b => key b == key a) = true
    · simpa only [keepLast, hc, if_true] using keepLast_pairwise_ne key l
    · simp only [keepLast, hc, if_false]
      refine List.Pairwise.cons ?_ (keepLast_pairwise_ne key l)
      intro b hb heq
      apply hc
      simp only [List.any_eq_true, beq_iff_eq]
      exact ⟨b, mem_of_mem_keepLast key hb, heq.symm⟩

theorem keepLast_map_key_nodup {α : Type} (key : α → Nat) (l : List α) :
    ((keepLast key l).map key).Nodup :=
  List.pairwise_map.2 (keepLast_pairwise_ne key l)

theorem exists_mem_keepLast {α : Type} (key : α → Nat) {k : Nat} :
    ∀ {l : List α}, k ∈ l.map key → ∃ r, r ∈ keepLast key l ∧ key r = k
  | [], h => by simp at h
  | a :: l, h => by
    by_cases hc : l.any (fun b => key b == key a) = true
    · simp only [keepLast, hc, if_true]
      rcases List.mem_map.1 h with ⟨s, hs, hsk⟩
      rcases List.mem_cons.1 hs with hs | hs
      · subst hs
        rcases List.any_eq_true.1 hc with ⟨b, hb, hbk⟩
        exact exists_mem_keepLast key
          (List.mem_map.2 ⟨b, hb, by rw [beq_iff_eq] at hbk; rw [hbk, hsk]⟩)
      · exact exists_mem_keepLast key (List.mem_map.2 ⟨s, hs, hsk⟩)
    · simp only [keepLast, hc, if_false]
      rcases List.mem_map.1 h with ⟨s, hs, hsk⟩
      rcases List.mem_cons.1 hs with hs | hs
      · exact ⟨a, List.mem_cons_self _ _, by rw [← hs]; exact hsk⟩
      · rcases exists_mem_keepLast key (List.mem_map.2 ⟨s, hs, hsk⟩) with ⟨r, hr, hrk⟩
        exact ⟨r, List.mem_cons_of_mem a hr, hrk⟩

theorem length_filter_le_one {β : Type} (keyo : β → Nat) :
    ∀ {other : List β}, ((other.map keyo).Nodup) → ∀ k : Nat,
      (other.filter (fun b => keyo b == k)).length ≤ 1
  | [], _, k => by simp
  | b :: l, hnd, k => by
    rw [List.map_cons, List.nodup_cons] at hnd
    by_cases hk : keyo b == k
    · have hnil : l.filter (fun c => keyo c == k) = [] := by
        rw [List.filter_eq_nil_iff]
        intro c hc hck
        rw [beq_iff_eq] at hk hck
        exact hnd.1 (List.mem_map.2 ⟨c, hc, by rw [hck, hk]⟩)
      simp [List.filter_cons, hk, hnil]
    · simp only [List.filter_cons, hk, if_false]
      exact length_filter_le_one keyo hnd.2 k

theorem leftMerge_length {α β : Type} (keyb : α → Nat) (keyo : β → Nat)
    (base : List α) (other : List β) (hnd : (other.map keyo).Nodup) :
    (leftMerge keyb keyo base other).length = base.length := by
  have hone : ∀ a : α,
      (if (other.filter (fun b => keyo b == keyb a)).isEmpty then
          ([(a, (none : Option β))] : List (α × Option β))
        else (other.filter (fun b => keyo b == keyb a)).map (fun b => (a, some b))).length
        = 1 := by
    intro a
    by_cases he : (other.filter (fun b => keyo b == keyb a)).isEmpty = true
    · simp [he]
    · rw [if_neg he, List.length_map]
      have h1 := length_filter_le_one keyo hnd (keyb a)
      have h0 : (other.filter (fun b => keyo b == keyb a)).length ≠ 0 := fun h =>
        he (List.isEmpty_iff.2 (List.length_eq_zero.1 h))
      omega
  rw [leftMerge, List.length_flatMap]
  simp only [Function.comp_def]
  rw [List.map_congr_left (fun a _ => hone a)]
  simp

theorem resolveLatest_key_nodup {α : Type} (key : α → Nat) (date : α → Int)
    (l : List α) : ((resolveLatest key date l).map key).Nodup :=
  keepLast_map_key_nodup key _

theorem df_latest_trades_key_nodup (trades : List TradeRow) :
    ((df_latest_trades trades).map TradeRow.bond_id).Nodup :=
  resolveLatest_key_nodup _ _ trades

theorem df_latest_ratings_key_nodup (ratings : List RatingRow) :
    ((df_latest_ratings ratings).map LatestRatingRow.bond_id).Nodup := by
  unfold df_latest_ratings
  rw [List.map_map]
  exact keepLast_map_key_nodup RatingRow.bond_id _

/-! ### What `keep='last'` retains -/

theorem keepLast_retains_last {α : Type} (key : α → Nat) (R : α → α → Prop) :
    ∀ {l : List α}, l.Pairwise R →
      ∀ r ∈ keepLast key l, ∀ s ∈ l, key s = key r → s = r ∨ R s r
  | [], _, r, hr => by simp [keepLast] at hr
  | a :: l, h, r, hr => by
    by_cases hc : l.any (fun b => key b == key a) = true
    · rw [keepLast, if_pos hc] at hr
      intro s hs hsk
      rcases List.mem_cons.1 hs with hs | hs
      · exact Or.inr (hs ▸ (List.pairwise_cons.1 h).1 r (mem_of_mem_keepLast key hr))
      · exact keepLast_retains_last key R (List.pairwise_cons.1 h).2 r hr s hs hsk
    · rw [keepLast, if_neg hc] at hr
      rcases List.mem_cons.1 hr with hr | hr
      · subst hr
        intro s hs hsk
        rcases List.mem_cons.1 hs with hs | hs
        · exact Or.inl hs
        · refine absurd (List.any_eq_true.2 ⟨s, hs, ?_⟩) hc
          exact beq_iff_eq.2 hsk
      · intro s hs hsk
        rcases List.mem_cons.1 hs with hs | hs
        · exact Or.inr (hs ▸ (List.pairwise_cons.1 h).1 r (mem_of_mem_keepLast key hr))
        · exact keepLast_retains_last key R (List.pairwise_cons.1 h).2 r hr s hs hsk

/-! ### C2: latest-snapshot resolution -/

/-- The executable instance `resolveLatest` is one admissible run of the
resolution: its insertion sort is a date-sorted permutation of the input. -/
theorem resolveLatest_is_admissible {α : Type} (key : α → Nat) (date : α → Int)
    (facts : List α) :
    resolveLatestRel key date facts (resolveLatest key date facts) := by
  refine ⟨List.insertionSort (fun a b => date a ≤ date b) facts, ⟨?_, ?_⟩, rfl⟩
  · exact (List.perm_insertionSort _ facts).symm
  · letI : IsTotal α (fun a b => date a ≤ date b) :=
      ⟨fun a b => le_total (date a) (date b)⟩
    letI : IsTrans α (fun a b => date a ≤ date b) :=
      ⟨fun a b c hab hbc => le_trans hab hbc⟩
    exact List.sorted_insertionSort _ facts

/-- C2 is refuted on its tie-break part: for two rating rows of the same
bond carrying the same date, both orders of the tied pair are admissible
results of the sort (`sort_values` defaults to the unstable
`kind='quicksort'`, so the program fixes no order among date ties), and
`drop_duplicates(keep='last')` then retains a different row in each — in
the first admissible run the snapshot is the row at input position 0, the
first in input order, not the claimed last one (position 1). -/
theorem tie_break_not_guaranteed :
    resolveLatestRel RatingRow.bond_id RatingRow.rating_date
      [⟨0, 1, 10, "AA"⟩, ⟨1, 1, 10, "A"⟩] [⟨0, 1, 10, "AA"⟩] ∧
    resolveLatestRel RatingRow.bond_id RatingRow.rating_date
      [⟨0, 1, 10, "AA"⟩, ⟨1, 1, 10, "A"⟩] [⟨1, 1, 10, "A"⟩] :=
  ⟨⟨[⟨1, 1, 10, "A"⟩, ⟨0, 1, 10, "AA"⟩], ⟨by decide, by decide⟩, by decide⟩,
   ⟨[⟨0, 1, 10, "AA"⟩, ⟨1, 1, 10, "A"⟩], ⟨by decide, by decide⟩, by decide⟩⟩

/-- C2 (amended): every admissible outcome of latest-snapshot resolution
(lines 53 and 58 of `Visualizations.py`) holds, for every bond key present
in the input fact table, exactly one row with that key; that row is an
input row of that key whose date is maximal among the key's rows; and when
a single row of the key strictly dominates the dates of all its others,
exactly that row is retained.  Which of several rows tying on the maximal
date survives is not determined by the program (see
`tie_break_not_guaranteed`). -/
theorem resolveLatest_max_per_key {α : Type} (key : α → Nat) (date : α → Int)
    (facts snapshot : List α)
    (hrel : resolveLatestRel key date facts snapshot)
    (k : Nat) (hk : k ∈ facts.map key) :
    ∃ r, r ∈ snapshot ∧ r ∈ facts ∧ key r = k ∧
      (∀ s ∈ snapshot, key s = k → s = r) ∧
      (∀ s ∈ facts, key s = k → date s ≤ date r) ∧
      (∀ s ∈ facts, key s = k →
        (∀ t ∈ facts, t ≠ s → key t = k → date t < date s) → r = s) := by
  obtain ⟨L, ⟨hperm, hsort⟩, rfl⟩ := hrel
  have hkL : k ∈ L.map key := (hperm.map key).mem_iff.1 hk
  obtain ⟨r, hrK, hrk⟩ := exists_mem_keepLast key hkL
  have hrL := mem_of_mem_keepLast key hrK
  have hrF : r ∈ facts := hperm.mem_iff.2 hrL
  have hmax : ∀ s ∈ facts, key s = k → date s ≤ date r := by
    intro s hsF hsk
    have hsL : s ∈ L := hperm.mem_iff.1 hsF
    rcases keepLast_retains_last key (fun a b => date a ≤ date b) hsort r hrK s hsL
        (hsk.trans hrk.symm) with h | h
    · exact le_of_eq (congrArg date h)
    · exact h
  refine ⟨r, hrK, hrF, hrk, ?_, hmax, ?_⟩
  · intro s hs hsk
    by_contra hne
    have hsymm : Symmetric (fun a b : α => key a ≠ key b) := by
      intro x y h e
      exact h e.symm
    exact List.Pairwise.forall hsymm (keepLast_pairwise_ne key _)
      hs hrK hne (hsk.trans hrk.symm)
  · intro s hsF hsk hdom
    by_contra hne
    have hlt := hdom r hrF hne hrk
    exact absurd (hmax s hsF hsk) (not_le.2 hlt)

/-- Witness for `resolveLatest_max_per_key`: three rating rows for two
bonds (bond 1 dated 10 and 12), resolved through the executable instance,
an admissible outcome; the unique max-date row of bond 1 is retained. -/
theorem resolveLatest_max_per_key_witness :
    ∃ r, r ∈ resolveLatest RatingRow.bond_id RatingRow.rating_date
        [⟨0, 1, 10, "AA"⟩, ⟨1, 1, 12, "A"⟩, ⟨2, 2, 5, "BBB"⟩] ∧
      r ∈ [RatingRow.mk 0 1 10 "AA", ⟨1, 1, 12, "A"⟩, ⟨2, 2, 5, "BBB"⟩] ∧
      r.bond_id = 1 ∧
      (∀ s ∈ resolveLatest RatingRow.bond_id RatingRow.rating_date
          [⟨0, 1, 10, "AA"⟩, ⟨1, 1, 12, "A"⟩, ⟨2, 2, 5, "BBB"⟩],
        s.bond_id = 1 → s = r) ∧
      (∀ s ∈ [RatingRow.mk 0 1 10 "AA", ⟨1, 1, 12, "A"⟩, ⟨2, 2, 5, "BBB"⟩],
        s.bond_id = 1 → s.rating_date ≤ r.rating_date) ∧
      (∀ s ∈ [RatingRow.mk 0 1 10 "AA", ⟨1, 1, 12, "A"⟩, ⟨2, 2, 5, "BBB"⟩],
        s.bond_id = 1 →
        (∀ t ∈ [RatingRow.mk 0 1 10 "AA", ⟨1, 1, 12, "A"⟩, ⟨2, 2, 5, "BBB"⟩],
          t ≠ s → t.bond_id = 1 → t.rating_date < s.rating_date) → r = s) :=
  resolveLatest_max_per_key RatingRow.bond_id RatingRow.rating_date
    [⟨0, 1, 10, "AA"⟩, ⟨1, 1, 12, "A"⟩, ⟨2, 2, 5, "BBB"⟩]
    (resolveLatest RatingRow.bond_id RatingRow.rating_date
      [⟨0, 1, 10, "AA"⟩, ⟨1, 1, 12, "A"⟩, ⟨2, 2, 5, "BBB"⟩])
    (resolveLatest_is_admissible RatingRow.bond_id RatingRow.rating_date
      [⟨0, 1, 10, "AA"⟩, ⟨1, 1, 12, "A"⟩, ⟨2, 2, 5, "BBB"⟩])
    1 (by decide)

/-! ### C1: left-join row-count preservation -/

/-- C1: the claim "output row count equals the base table's row count, for
arbitrary duplicate or missing keys on the joined-in side" is false for the
bonds-with-issuers join of line 41: with a duplicated `issuer_id` in the
issuers table, pandas left merge emits one output row per match, so a
single bond produces two rows. -/
theorem left_join_duplicates_base_rows :
    (mergeBondsIssuers
        [⟨1, 7, 1, 5, "GO", 0⟩]
        [⟨7, "CA", "Auth A"⟩, ⟨7, "CA", "Auth B"⟩]).length ≠
      ([⟨1, 7, 1, 5, "GO", 0⟩] : List BondRow).length := by
  decide

/-- C1 (amended): each left join of the pipeline preserves the base table's
row count provided the joined-in side has no duplicate join keys; this
holds unconditionally for the two snapshot joins of lines 60-62 (their
joined-in sides are deduplicated on `bond_id` by lines 53 and 58), while the
dimension joins of lines 41-43 require the issuer and purpose tables to
have unique keys (missing keys are always fine). -/
theorem left_join_preserves_rowcount
    (bonds : List BondRow) (issuers : List IssuerRow) (purposes : List PurposeRow)
    (trades : List TradeRow) (ratings : List RatingRow)
    (hI : (issuers.map IssuerRow.issuer_id).Nodup)
    (hP : (purposes.map PurposeRow.purpose_id).Nodup) :
    (mergeBondsIssuers bonds issuers).length = bonds.length ∧
    (df_bonds bonds issuers purposes).length = bonds.length ∧
    (df_master bonds issuers purposes trades ratings).length = bonds.length := by
  have h1 : (mergeBondsIssuers bonds issuers).length = bonds.length :=
    leftMerge_length _ _ bonds issuers hI
  have h2 : (df_bonds bonds issuers purposes).length = bonds.length := by
    rw [df_bonds, mergeBondsPurposes, leftMerge_length _ _ _ _ hP, h1]
  refine ⟨h1, h2, ?_⟩
  rw [df_master, mergeMasterRatings,
    leftMerge_length _ _ _ _ (df_latest_ratings_key_nodup ratings),
    mergeMasterTrades, leftMerge_length _ _ _ _ (df_latest_trades_key_nodup trades), h2]

/-- Witness for `left_join_preserves_rowcount` at a concrete five-table input. -/
theorem left_join_preserves_rowcount_witness :
    (df_master [⟨1, 7, 2, 5, "GO", 100⟩] [⟨7, "CA", "Auth"⟩] [⟨2, "School"⟩]
        [⟨0, 1, 10, 3, 100, 50, "Retail"⟩] [⟨0, 1, 11, "AA"⟩]).length =
      ([⟨1, 7, 2, 5, "GO", 100⟩] : List BondRow).length :=
  (left_join_preserves_rowcount _ _ _ _ _ (by decide) (by decide)).2.2

/-! ### C3: the ordinal rating scale -/

/-- C3: `RATING_ORDER` (lines 18-25 of `Visualizations.py`) maps the i-th
label of the fixed 20-label enumeration to rank i+1, so the rank is total
on the enumeration and strictly increasing from rank 1 (`AAA`, best) to
rank 20 (`D`, worst); `Series.map` over the dictionary sends every label
outside the enumeration to the missing marker — never 0, never a clamped
or default rank, and never an exception (the map is total). -/
theorem ratingOrder_strict_total :
    (∀ i : Fin RATING_LABELS.length,
        ratingOrder (RATING_LABELS.get i) = some (i.val + 1)) ∧
    ratingOrder "AAA" = some 1 ∧ ratingOrder "D" = some 20 ∧
    (∀ i j : Fin RATING_LABELS.length, i < j →
        (ratingOrder (RATING_LABELS.get i)).getD 0 <
          (ratingOrder (RATING_LABELS.get j)).getD 0) ∧
    (∀ s : String, s ∉ RATING_LABELS → ratingOrder s = none) := by
  refine ⟨by decide, by decide, by decide, by decide, ?_⟩
  intro s hs
  have hnone : RATING_ORDER.find? (fun p => p.1 == s) = none := by
    rw [List.find?_eq_none]
    intro x hx hxs
    exact hs (List.mem_map.2 ⟨x, hx, by rwa [beq_iff_eq] at hxs⟩)
  rw [ratingOrder, hnone]
  rfl

/-- Witness for `ratingOrder_strict_total`: rank strictly increases from
the first label to the last, and the unmapped label `NR` yields missing. -/
theorem ratingOrder_strict_total_witness :
    (ratingOrder (RATING_LABELS.get ⟨0, by decide⟩)).getD 0 <
      (ratingOrder (RATING_LABELS.get ⟨19, by decide⟩)).getD 0 ∧
    ratingOrder "NR" = none :=
  ⟨ratingOrder_strict_total.2.2.2.1 ⟨0, by decide⟩ ⟨19, by decide⟩ (by decide),
   ratingOrder_strict_total.2.2.2.2 "NR" (by decide)⟩

/-! ### C4: time to maturity -/

/-- C4: line 70 of `Visualizations.py` computes, for every master row,
`time_to_maturity = (maturity_date - TODAY).days / 365.25` in fractional
years against the fixed reference date `TODAY = 2024-06-01` (line 69, a
hard-coded constant, never the wall clock); every input row receives a
value (none is rejected), and a maturity date before the reference date
yields a negative value. -/
theorem time_to_maturity_formula :
    TODAY = daysFromCivil 2024 6 1 ∧
    (∀ rows : List MasterJoined, (addTimeToMaturity rows).map Prod.fst = rows) ∧
    (∀ rows : List MasterJoined, ∀ p ∈ addTimeToMaturity rows,
        p.2 = ((maturityOf p.1 - TODAY : Int) : Rat) / (365.25 : Rat)) ∧
    (∀ rows : List MasterJoined, ∀ p ∈ addTimeToMaturity rows,
        maturityOf p.1 < TODAY → p.2 < 0) := by
  refine ⟨rfl, ?_, ?_, ?_⟩
  · intro rows
    simp [addTimeToMaturity, List.map_map, Function.comp_def]
  · intro rows p hp
    rcases List.mem_map.1 hp with ⟨r, _, rfl⟩
    rfl
  · intro rows p hp hneg
    rcases List.mem_map.1 hp with ⟨r, _, rfl⟩
    have hnum : ((maturityOf r - TODAY : Int) : Rat) < 0 := by
      exact_mod_cast Int.sub_neg_of_lt hneg
    exact div_neg_of_neg_of_pos hnum (by norm_num)

/-- Witness for `time_to_maturity_formula`: a bond maturing ten days before
the cut-off date gets a negative time to maturity. -/
theorem time_to_maturity_formula_witness :
    (mjW, ((maturityOf mjW - TODAY : Int) : Rat) / (365.25 : Rat)).2 < 0 :=
  time_to_maturity_formula.2.2.2 [mjW] _
    (List.mem_singleton.2 rfl)
    (by show TODAY - 10 < TODAY; omega)

/-! ### C5: monthly resample -/

theorem eq_nil_of_listMin_eq_none : ∀ {l : List Int}, listMin l = none → l = []
  | [], _ => rfl
  | a :: l, h => by
    rw [listMin] at h
    cases hl : listMin l with
    | none => rw [hl] at h; exact Option.noConfusion h
    | some m => rw [hl] at h; exact Option.noConfusion h

theorem eq_nil_of_listMax_eq_none : ∀ {l : List Int}, listMax l = none → l = []
  | [], _ => rfl
  | a :: l, h => by
    rw [listMax] at h
    cases hl : listMax l with
    | none => rw [hl] at h; exact Option.noConfusion h
    | some m => rw [hl] at h; exact Option.noConfusion h

theorem listMin_le : ∀ {l : List Int} {m : Int}, listMin l = some m → ∀ a ∈ l, m ≤ a
  | [], _, h => by exact absurd h (by simp [listMin])
  | b :: l, m, h => by
    rw [listMin] at h
    intro a ha
    rcases List.mem_cons.1 ha with rfl | ha
    · cases hl : listMin l with
      | none =>
        rw [hl] at h
        exact le_of_eq (Option.some.inj h).symm
      | some m2 =>
        rw [hl] at h
        have h2 := Option.some.inj h
        by_cases hle : a ≤ m2
        · rw [if_pos hle] at h2
          omega
        · rw [if_neg hle] at h2
          omega
    · cases hl : listMin l with
      | none =>
        rw [eq_nil_of_listMin_eq_none hl] at ha
        exact absurd ha (List.not_mem_nil a)
      | some m2 =>
        rw [hl] at h
        have h2 := Option.some.inj h
        have h3 := listMin_le hl a ha
        by_cases hle : b ≤ m2
        · rw [if_pos hle] at h2
          omega
        · rw [if_neg hle] at h2
          omega

theorem le_listMax : ∀ {l : List Int} {m : Int}, listMax l = some m → ∀ a ∈ l, a ≤ m
  | [], _, h => by exact absurd h (by simp [listMax])
  | b :: l, m, h => by
    rw [listMax] at h
    intro a ha
    rcases List.mem_cons.1 ha with rfl | ha
    · cases hl : listMax l with
      | none =>
        rw [hl] at h
        exact le_of_eq (Option.some.inj h)
      | some m2 =>
        rw [hl] at h
        have h2 := Option.some.inj h
        by_cases hle : a ≤ m2
        · rw [if_pos hle] at h2
          omega
        · rw [if_neg hle] at h2
          omega
    · cases hl : listMax l with
      | none =>
        rw [eq_nil_of_listMax_eq_none hl] at ha
        exact absurd ha (List.not_mem_nil a)
      | some m2 =>
        rw [hl] at h
        have h2 := Option.some.inj h
        have h3 := le_listMax hl a ha
        by_cases hle : b ≤ m2
        · rw [if_pos hle] at h2
          omega
        · rw [if_neg hle] at h2
          omega

/-- C5 is refuted on its empty-month part: with trades only in January
2024 (yields 3.0 and 4.0) and March 2024 (yield 5.0), the monthly resample
of lines 131-134 emits a February bucket carrying a missing mean — a month
with zero trades yields a row with a missing value, not "no bucket at
all" (month 24290 is February 2024 in the linearized index). -/
theorem resample_empty_month_has_bucket :
    resampleMonthlyYield
        [⟨2024, 1, 5, 3, 100⟩, ⟨2024, 1, 20, 4, 100⟩, ⟨2024, 3, 10, 5, 100⟩] =
      [(24289, some (7 / 2)), (24290, none), (24291, some 5)] := by
  norm_num [resampleMonthlyYield, listMin, listMax, monthIdx, monthVals, meanOpt,
    List.range_succ, List.range_zero, List.flatMap_cons, List.flatMap_nil,
    (by decide : ((2 : Int)).toNat = 2)]

/-- C5 (amended): the monthly resample emits exactly one bucket per
calendar month from the earliest to the latest trade month inclusive;
a bucket whose month has at least one trade row carries the arithmetic
mean of the yields of that month's rows, and a bucket whose month has no
rows carries the missing marker (never zero) while still being present in
the output; every trade's month has a bucket. -/
theorem resample_monthly_buckets (trades : List TradeDated) (lo hi : Int)
    (hlo : listMin (trades.map monthIdx) = some lo)
    (hhi : listMax (trades.map monthIdx) = some hi) :
    ((resampleMonthlyYield trades).map Prod.fst =
      (List.range ((hi - lo).toNat + 1)).map (fun n : Nat => lo + (n : Int))) ∧
    (∀ p ∈ resampleMonthlyYield trades, monthVals trades p.1 = [] ↔ p.2 = none) ∧
    (∀ p ∈ resampleMonthlyYield trades, monthVals trades p.1 ≠ [] →
      p.2 = some ((monthVals trades p.1).sum / ((monthVals trades p.1).length : Rat))) ∧
    (∀ r ∈ trades, monthIdx r ∈ (resampleMonthlyYield trades).map Prod.fst) := by
  have hres : resampleMonthlyYield trades =
      (List.range ((hi - lo).toNat + 1)).map
        (fun n : Nat => (lo + (n : Int), meanOpt (monthVals trades (lo + (n : Int))))) := by
    rw [resampleMonthlyYield, hlo, hhi]
  have hval : ∀ p ∈ resampleMonthlyYield trades,
      p.2 = meanOpt (monthVals trades p.1) := by
    intro p hp
    rw [hres] at hp
    rcases List.mem_map.1 hp with ⟨n, _, rfl⟩
    rfl
  refine ⟨?_, ?_, ?_, ?_⟩
  · rw [hres, List.map_map]
    rfl
  · intro p hp
    constructor
    · intro he
      rw [hval p hp, he]
      rfl
    · intro hn
      rw [hval p hp, meanOpt] at hn
      by_cases he : (monthVals trades p.1).isEmpty = true
      · exact List.isEmpty_iff.1 he
      · rw [if_neg he] at hn
        exact Option.noConfusion hn
  · intro p hp hne
    rw [hval p hp, meanOpt,
      if_neg (fun he => hne (List.isEmpty_iff.1 he))]
  · intro r hr
    have h1 := listMin_le hlo (monthIdx r) (List.mem_map_of_mem monthIdx hr)
    have h2 := le_listMax hhi (monthIdx r) (List.mem_map_of_mem monthIdx hr)
    rw [hres]
    have hmem : (monthIdx r - lo).toNat ∈ List.range ((hi - lo).toNat + 1) :=
      List.mem_range.2 (by omega)
    have hin : (lo + (((monthIdx r - lo).toNat : Nat) : Int),
        meanOpt (monthVals trades (lo + (((monthIdx r - lo).toNat : Nat) : Int)))) ∈
        (List.range ((hi - lo).toNat + 1)).map
          (fun n : Nat => (lo + (n : Int), meanOpt (monthVals trades (lo + (n : Int))))) :=
      List.mem_map.2 ⟨(monthIdx r - lo).toNat, hmem, rfl⟩
    have hfst := List.mem_map_of_mem Prod.fst hin
    have heq : lo + (((monthIdx r - lo).toNat : Nat) : Int) = monthIdx r := by omega
    rwa [heq] at hfst

/-- Witness for `resample_monthly_buckets`: trades in January and March
2024 produce buckets for exactly the three months January through March. -/
theorem resample_monthly_buckets_witness :
    (resampleMonthlyYield [⟨2024, 1, 5, 3, 100⟩, ⟨2024, 3, 10, 5, 100⟩]).map Prod.fst =
      (List.range (((24291 : Int) - 24289).toNat + 1)).map
        (fun n : Nat => (24289 : Int) + (n : Int)) :=
  (resample_monthly_buckets _ 24289 24291 (by decide) (by decide)).1

/-! ### C6: two-key pivot -/

theorem dedup_map_dedup_length {α β : Type} [DecidableEq α] [DecidableEq β]
    (f : α → β) (l : List α) :
    ((l.dedup.map f).dedup).length = ((l.map f).dedup).length := by
  have h1 : ((l.dedup.map f).dedup).toFinset = ((l.map f).dedup).toFinset := by
    ext x
    simp only [List.mem_toFinset, List.mem_dedup, List.mem_map]
  calc ((l.dedup.map f).dedup).length
      = ((l.dedup.map f).dedup).toFinset.card :=
        (List.toFinset_card_of_nodup (List.nodup_dedup _)).symm
    _ = ((l.map f).dedup).toFinset.card := by rw [h1]
    _ = ((l.map f).dedup).length := List.toFinset_card_of_nodup (List.nodup_dedup _)

theorem mem_df_sector_perf {rows : List SectorRow} {q : (String × String) × Rat}
    (hq : q ∈ df_sector_perf rows) :
    q.2 = mean (cellVals rows q.1.1 q.1.2) ∧
    ∃ r ∈ rows, r.purpose_category = q.1.1 ∧ r.bond_type = q.1.2 := by
  rw [df_sector_perf] at hq
  rcases List.mem_map.1 hq with ⟨k, hk, rfl⟩
  refine ⟨rfl, ?_⟩
  rcases List.mem_map.1 (List.mem_dedup.1 hk) with ⟨r, hr, hkr⟩
  exact ⟨r, hr, by rw [← hkr], by rw [← hkr]⟩

theorem pair_mem_df_sector_perf {rows : List SectorRow} {r : SectorRow}
    (hr : r ∈ rows) :
    ((r.purpose_category, r.bond_type),
      mean (cellVals rows r.purpose_category r.bond_type)) ∈ df_sector_perf rows := by
  rw [df_sector_perf]
  exact List.mem_map.2 ⟨(r.purpose_category, r.bond_type),
    List.mem_dedup.2 (List.mem_map_of_mem _ hr), rfl⟩

theorem cellVals_ne_nil_iff (rows : List SectorRow) (p b : String) :
    cellVals rows p b ≠ [] ↔
      ∃ r ∈ rows, r.purpose_category = p ∧ r.bond_type = b := by
  rw [cellVals]
  constructor
  · intro h
    rcases List.exists_mem_of_ne_nil _ h with ⟨y, hy⟩
    rcases List.mem_map.1 hy with ⟨r, hrf, _⟩
    rcases List.mem_filter.1 hrf with ⟨hr, hpred⟩
    rw [Bool.and_eq_true, beq_iff_eq, beq_iff_eq] at hpred
    exact ⟨r, hr, hpred.1, hpred.2⟩
  · rintro ⟨r, hr, hp, hb⟩ hnil
    have hmem : r.yield_pct ∈
        (rows.filter fun r2 => r2.purpose_category == p && r2.bond_type == b).map
          SectorRow.yield_pct :=
      List.mem_map_of_mem _ (List.mem_filter.2 ⟨hr, by
        rw [Bool.and_eq_true, beq_iff_eq, beq_iff_eq]
        exact ⟨hp, hb⟩⟩)
    rw [hnil] at hmem
    exact absurd hmem (List.not_mem_nil _)

/-- C6: the pivot of lines 161-162 of `Visualizations.py` is a rectangular
grid: one row per distinct purpose category of the input, each row holding
one cell per distinct bond type of the input; every cell is defined,
holding the `groupby` mean of the combination's yields when the input has
at least one row for the combination and the `fillna` sentinel 0 when it
has none. -/
theorem pivot_rectangular (rows : List SectorRow) :
    ((pivotGrid (df_sector_perf rows)).length =
      ((rows.map SectorRow.purpose_category).dedup).length) ∧
    (∀ pr ∈ pivotGrid (df_sector_perf rows),
      (pr.2.map Prod.fst).length = ((rows.map SectorRow.bond_type).dedup).length) ∧
    (∀ pr ∈ pivotGrid (df_sector_perf rows), ∀ c ∈ pr.2,
      (cellVals rows pr.1 c.1 = [] → c.2 = 0) ∧
      (cellVals rows pr.1 c.1 ≠ [] → c.2 = mean (cellVals rows pr.1 c.1))) := by
  have hkeys1 : (df_sector_perf rows).map (fun q => q.1.1) =
      ((rows.map (fun r => (r.purpose_category, r.bond_type))).dedup).map Prod.fst := by
    rw [df_sector_perf, List.map_map]
    rfl
  have hkeys2 : (df_sector_perf rows).map (fun q => q.1.2) =
      ((rows.map (fun r => (r.purpose_category, r.bond_type))).dedup).map Prod.snd := by
    rw [df_sector_perf, List.map_map]
    rfl
  have hlen1 : (((df_sector_perf rows).map (fun q => q.1.1)).dedup).length =
      ((rows.map SectorRow.purpose_category).dedup).length := by
    rw [hkeys1, dedup_map_dedup_length, List.map_map]
    rfl
  have hlen2 : (((df_sector_perf rows).map (fun q => q.1.2)).dedup).length =
      ((rows.map SectorRow.bond_type).dedup).length := by
    rw [hkeys2, dedup_map_dedup_length, List.map_map]
    rfl
  refine ⟨?_, ?_, ?_⟩
  · rw [pivotGrid, List.length_map]
    exact hlen1
  · intro pr hpr
    rw [pivotGrid] at hpr
    rcases List.mem_map.1 hpr with ⟨p, _, rfl⟩
    rw [List.map_map, List.length_map]
    exact hlen2
  · intro pr hpr c hc
    rw [pivotGrid] at hpr
    rcases List.mem_map.1 hpr with ⟨p, _, rfl⟩
    rcases List.mem_map.1 hc with ⟨b, _, rfl⟩
    constructor
    · intro hnil
      cases hfind : (df_sector_perf rows).find?
          (fun q => q.1.1 == p && q.1.2 == b) with
      | none => simp [hfind]
      | some q =>
        have hpred := List.find?_some hfind
        rw [Bool.and_eq_true, beq_iff_eq, beq_iff_eq] at hpred
        rcases (mem_df_sector_perf (List.mem_of_find?_eq_some hfind)).2
          with ⟨r, hr, hrp, hrb⟩
        have : cellVals rows p b ≠ [] := (cellVals_ne_nil_iff rows p b).2
          ⟨r, hr, by rw [hrp, hpred.1], by rw [hrb, hpred.2]⟩
        exact absurd hnil this
    · intro hne
      rcases (cellVals_ne_nil_iff rows p b).1 hne with ⟨r, hr, hrp, hrb⟩
      have helem := pair_mem_df_sector_perf hr
      rw [hrp, hrb] at helem
      cases hfind : (df_sector_perf rows).find?
          (fun q => q.1.1 == p && q.1.2 == b) with
      | none =>
        exact absurd (by simp : ((p, b), mean (cellVals rows p b)).1.1 == p &&
            ((p, b), mean (cellVals rows p b)).1.2 == b)
          (by simpa using List.find?_eq_none.1 hfind _ helem)
      | some q =>
        have hpred := List.find?_some hfind
        rw [Bool.and_eq_true, beq_iff_eq, beq_iff_eq] at hpred
        have hq := (mem_df_sector_perf (List.mem_of_find?_eq_some hfind)).1
        simp only [hfind]
        rw [hq, hpred.1, hpred.2]

/-- Witness for `pivot_rectangular`: a one-row input yields a 1-by-1 grid. -/
theorem pivot_rectangular_witness :
    (pivotGrid (df_sector_perf [⟨"Education", "GO", 3⟩])).length =
      ((([⟨"Education", "GO", 3⟩] : List SectorRow).map
        SectorRow.purpose_category).dedup).length :=
  (pivot_rectangular [⟨"Education", "GO", 3⟩]).1

/-! ### C7: unparseable dates -/

/-- C7 is refuted: with one parseable and one unparseable rating date, the
ratings preparation raises (`pd.to_datetime` defaults to `errors='raise'`
and no handler catches it), instead of excluding the bad row and resolving
the parseable one. -/
theorem unparseable_date_aborts :
    prepare_ratings
        [⟨0, 1, RawCell.dateVal 10, "AA"⟩, ⟨1, 2, RawCell.junk "not a date", "A"⟩] =
      Except.error "not a date" := by
  rfl

/-- C7 (amended): a row whose date fails to parse makes the whole ratings
preparation fail with an error (the run aborts — no row is excluded and
reported); only when every row's date parses does the preparation succeed,
resolving the parsed rows normally. -/
theorem parse_failure_fatal (rows : List RawRatingRow) :
    ((∃ r ∈ rows, ∀ d, r.rating_date ≠ RawCell.dateVal d) →
      ∃ e, prepare_ratings rows = Except.error e) ∧
    ((∀ r ∈ rows, ∃ d, r.rating_date = RawCell.dateVal d) →
      ∃ l, to_datetime_ratings rows = Except.ok l ∧
        prepare_ratings rows = Except.ok (df_latest_ratings l)) := by
  induction rows with
  | nil =>
    constructor
    · rintro ⟨r, hr, -⟩
      exact absurd hr (List.not_mem_nil r)
    · intro _
      exact ⟨[], rfl, rfl⟩
  | cons a rows ih =>
    constructor
    · rintro ⟨r, hr, hjunk⟩
      rcases List.mem_cons.1 hr with rfl | hr
      · cases hcell : r.rating_date with
        | dateVal d => exact absurd hcell (hjunk d)
        | junk s =>
          refine ⟨s, ?_⟩
          simp [prepare_ratings, to_datetime_ratings, parseCell, hcell, Except.map]
      · rcases ih.1 ⟨r, hr, hjunk⟩ with ⟨e, he⟩
        cases hcell : a.rating_date with
        | junk s =>
          refine ⟨s, ?_⟩
          simp [prepare_ratings, to_datetime_ratings, parseCell, hcell, Except.map]
        | dateVal d =>
          refine ⟨e, ?_⟩
          rw [prepare_ratings] at he ⊢
          cases htail : to_datetime_ratings rows with
          | error e2 =>
            rw [htail] at he
            simp only [Except.map] at he
            simp [to_datetime_ratings, parseCell, hcell, htail, he, Except.map]
          | ok l =>
            rw [htail] at he
            simp [Except.map] at he
    · intro hall
      rcases hall a (List.mem_cons_self a rows) with ⟨d, hd⟩
      rcases ih.2 (fun r hr => hall r (List.mem_cons_of_mem a hr)) with ⟨l, hl, _⟩
      refine ⟨⟨a.idx, a.bond_id, d, a.rating⟩ :: l, ?_, ?_⟩
      · simp [to_datetime_ratings, parseCell, hd, hl]
      · simp [prepare_ratings, to_datetime_ratings, parseCell, hd, hl, Except.map]

/-! ### C8: per-view failure isolation -/

theorem read_tables_none {DF : Type} (files : String → Option DF) {k : String} :
    ∀ {ks : List String}, k ∈ ks → files k = none → read_tables files ks = none
  | [], hk, _ => absurd hk (List.not_mem_nil k)
  | a :: ks, hk, hnone => by
    rcases List.mem_cons.1 hk with rfl | hk
    · simp [read_tables, hnone]
    · cases ha : files a with
      | none => simp [read_tables, ha]
      | some d => simp [read_tables, ha, read_tables_none files hk hnone]

/-- C8 is refuted for `Visualizations.py`: when only `trades.csv` is
missing, `load_and_prepare_data` returns `None` (lines 33-36), so no view
at all is produced — including the views whose required inputs (issuers,
bonds, purposes, ratings) are all present. -/
theorem missing_table_kills_all_views :
    load_and_prepare_data (fun k => if k = "trades" then none else some ()) = none ∧
    (fun k : String => if k = "trades" then (none : Option Unit) else some ()) "issuers"
      = some () ∧
    (fun k : String => if k = "trades" then (none : Option Unit) else some ()) "ratings"
      = some () := by
  refine ⟨?_, rfl, rfl⟩
  rfl

/-- C8 (amended): per-view failure isolation holds in the dashboard loader
`load_all_data` — a key's table is present in the result exactly when its
own processing succeeds, independent of any other key's failure — but not
in `load_and_prepare_data` of `Visualizations.py`, where one missing input
file makes the whole load return `None`, aborting every view. -/
theorem per_view_isolation {DF : Type} (step : String → Except String DF)
    (files : String → Option DF) :
    (∀ k ∈ DATA_KEYS,
      ((∃ d, step k = Except.ok d) ↔ ∃ d, (k, d) ∈ load_all_data step)) ∧
    (∀ k ∈ CSV_KEYS, files k = none → load_and_prepare_data files = none) := by
  constructor
  · intro k hk
    constructor
    · rintro ⟨d, hd⟩
      exact ⟨d, List.mem_filterMap.2 ⟨k, hk, by rw [hd]⟩⟩
    · rintro ⟨d, hd⟩
      rcases List.mem_filterMap.1 hd with ⟨k2, _, hk2⟩
      cases hs : step k2 with
      | error e => rw [hs] at hk2; exact Option.noConfusion hk2
      | ok d2 =>
        rw [hs] at hk2
        have h1 := Option.some.inj hk2
        have h2 : k2 = k := congrArg Prod.fst h1
        have h3 : d2 = d := congrArg Prod.snd h1
        exact ⟨d, by rw [← h2, hs, h3]⟩
  · intro k hk hnone
    exact read_tables_none files hk hnone

/-- Witness for `per_view_isolation`: with the `credit_sentiment` step
failing and every other step succeeding, the `yield_spread` view is still
produced. -/
theorem per_view_isolation_witness :
    (∃ d : Unit, (fun k => if k = "credit_sentiment" then Except.error "boom"
        else Except.ok ()) "yield_spread" = Except.ok d) ↔
      ∃ d, ("yield_spread", d) ∈ load_all_data
        (fun k => if k = "credit_sentiment" then Except.error "boom"
          else Except.ok ()) :=
  (per_view_isolation
      (fun k => if k = "credit_sentiment" then Except.error "boom" else Except.ok ())
      (fun _ => (none : Option Unit))).1
    "yield_spread" (by decide)

/-! ### C9: stages and in-place mutation -/

/-- C9 is refuted: `create_visualizations` mutates the macro-indicator
table, which it did not produce — after the call the frame passed in as
`df_macro` has its `state` column renamed in place (line 138) and its date
column overwritten (line 139), so it no longer equals the table that was
passed in. -/
theorem create_visualizations_mutates_macro_df :
    (create_visualizations_effects [] [] []
        ⟨["date", "state", "unemployment_rate", "treasury_10yr", "vix_index"],
          false⟩).2.2.2 ≠
      ⟨["date", "state", "unemployment_rate", "treasury_10yr", "vix_index"],
        false⟩ := by
  decide

/-- C9 (amended): `create_visualizations` leaves the master, trades and
latest-ratings tables it receives unchanged, but it mutates the passed-in
macro-indicator table in place (lines 138-139): `state` and
`unemployment_rate` are renamed and the date column is overwritten, so any
macro frame carrying a `state` column is observably changed by the call. -/
theorem stages_mutate_only_macro_table (master : List MasterJoined)
    (trades : List TradeRow) (latest : List LatestRatingRow) (m : MacroDF) :
    (create_visualizations_effects master trades latest m).1 = master ∧
    (create_visualizations_effects master trades latest m).2.1 = trades ∧
    (create_visualizations_effects master trades latest m).2.2.1 = latest ∧
    (create_visualizations_effects master trades latest m).2.2.2 =
      prepareMacroInPlace m ∧
    ("state" ∈ m.cols →
      (create_visualizations_effects master trades latest m).2.2.2 ≠ m) := by
  refine ⟨rfl, rfl, rfl, rfl, ?_⟩
  intro hmem hne
  have hcols : m.cols.map renameMacroCol = m.cols :=
    congrArg MacroDF.cols hne
  have hst : "state" ∈ m.cols.map renameMacroCol := by rw [hcols]; exact hmem
  rcases List.mem_map.1 hst with ⟨c, _, hcr⟩
  by_cases h1 : c = "state"
  · rw [renameMacroCol, if_pos h1] at hcr
    exact absurd hcr (by decide)
  · by_cases h2 : c = "unemployment_rate"
    · rw [renameMacroCol, if_neg h1, if_pos h2] at hcr
      exact absurd hcr (by decide)
    · rw [renameMacroCol, if_neg h1, if_neg h2] at hcr
      exact h1 hcr

/-! ### C10: yield spread -/

/-- C10: every row of the yield-spread table produced by `load_all_data`
carries `yield_spread_bps = bond_yield − treasury_rate` as exact decimal
subtraction — in particular the trade with yield 6.41 and reference rate
0.79 carries spread 5.62 — and the yield-spread operator (spec-modelled,
the subtraction itself lives in the SQL analysis outside the repository)
subtracts exactly and yields missing exactly when an input is missing. -/
theorem yield_spread_exact :
    (∀ row ∈ df_yield_spread,
      row.yield_spread_bps = row.bond_yield - row.treasury_rate) ∧
    (∃ row ∈ df_yield_spread, row.trade_id = 2459 ∧ row.bond_yield = 6.41 ∧
      row.treasury_rate = 0.79 ∧ row.yield_spread_bps = 5.62) ∧
    (∀ a b : Rat, yieldSpread (some a) (some b) = some (a - b)) ∧
    (∀ y r : Option Rat, yieldSpread y r = none ↔ (y = none ∨ r = none)) := by
  have hdf : df_yield_spread =
      [⟨2459, "IL City #3", "2021-08-16", 6.41, 0.79, 5.62⟩,
       ⟨10461, "IL City #3", "2021-08-16", 6.41, 0.79, 5.62⟩,
       ⟨2460, "IL City #3", "2021-10-05", 6.2, 0.63, 5.57⟩,
       ⟨10462, "IL City #3", "2021-10-05", 6.2, 0.63, 5.57⟩,
       ⟨13121, "State of NY", "2021-06-19", 6.05, 0.6, 5.45⟩,
       ⟨5119, "State of NY", "2021-06-19", 6.05, 0.6, 5.45⟩,
       ⟨10800, "FL Housing Authority #10", "2020-05-19", 6.37, 0.95, 5.42⟩,
       ⟨2798, "FL Housing Authority #10", "2020-05-19", 6.37, 0.95, 5.42⟩,
       ⟨13962, "IL County #4", "2020-04-13", 6.23, 0.84, 5.39⟩,
       ⟨5960, "IL County #4", "2020-04-13", 6.23, 0.84, 5.39⟩,
       ⟨1085, "FL Transit District #8", "2020-07-10", 5.84, 0.53, 5.31⟩,
       ⟨9087, "FL Transit District #8", "2020-07-10", 5.84, 0.53, 5.31⟩,
       ⟨9569, "State of NY", "2020-01-23", 5.9, 0.6, 5.3⟩,
       ⟨1567, "State of NY", "2020-01-23", 5.9, 0.6, 5.3⟩,
       ⟨5127, "IL County #11", "2021-10-25", 5.92, 0.63, 5.29⟩] := by
    rfl
  refine ⟨?_, ?_, ?_, ?_⟩
  · intro row hrow
    rw [hdf] at hrow
    fin_cases hrow <;> norm_num
  · refine ⟨⟨2459, "IL City #3", "2021-08-16", 6.41, 0.79, 5.62⟩, ?_, rfl, rfl, rfl, rfl⟩
    rw [hdf]
    exact List.mem_cons_self _ _
  · intro a b
    rfl
  · intro y r
    cases y <;> cases r <;> simp [yieldSpread]

/-- Witness for `yield_spread_exact`: the first row of the cleaned table
satisfies the subtraction identity. -/
theorem yield_spread_exact_witness :
    (⟨2459, "IL City #3", "2021-08-16", 6.41, 0.79, 5.62⟩ :
        YieldSpreadRow).yield_spread_bps =
      (⟨2459, "IL City #3", "2021-08-16", 6.41, 0.79, 5.62⟩ :
        YieldSpreadRow).bond_yield -
      (⟨2459, "IL City #3", "2021-08-16", 6.41, 0.79, 5.62⟩ :
        YieldSpreadRow).treasury_rate :=
  yield_spread_exact.1 _ (List.mem_cons_self _ _)

end Muni
